import Mathlib

/-!
Shallow embedding of src/i2ceeprom.h, a driver for 24CXX two-wire-bus EEPROMs.

The bus transport (the i2cmaster library) is the external collaborator; each
driver operation is modelled as the exact trace of transport primitives it
emits.  Alongside the trace, an ideal-transport interpretation is given: for a
write, the list of (device address, byte) pairs the emitted transactions
specify (transaction start address plus in-transaction auto-increment); for a
read, the list of (buffer index, byte) pairs stored into the caller's buffer,
reading an ideal memory that auto-increments from the address the
address-setting transaction specifies.

Machine integers are modelled as Nat with explicit reductions: a uint8_t
value is taken mod 256 and a uint16_t value mod 65536 exactly where the C
types truncate.
-/

/-- Transport primitives of the consumed i2cmaster interface: start a
transaction with a select byte (read/write bit included), write one byte,
acknowledged byte read, non-acknowledged byte read, stop. -/
inductive BusEvent where
  | start (sel : Nat)
  | write (b : Nat)
  | readAck
  | readNak
  | stop
deriving DecidableEq

/-- Tests whether a bus event opens a transaction. -/
def BusEvent.isStart : BusEvent → Bool
  | .start _ => true
  | _ => false

/-- Tests whether a bus event is a bus stop. -/
def BusEvent.isStop : BusEvent → Bool
  | .stop => true
  | _ => false

/-- Tests whether a bus event is a byte read (acknowledged or not). -/
def BusEvent.isRead : BusEvent → Bool
  | .readAck => true
  | .readNak => true
  | _ => false

/-- I2C_WRITE constant of the i2cmaster interface. -/
def I2C_WRITE : Nat := 0

/-- I2C_READ constant of the i2cmaster interface. -/
def I2C_READ : Nat := 1

/-- Device descriptor, struct eeprom: device address (uint8_t) and size of
the EEPROM in Kbits (uint16_t). -/
structure eeprom where
  eeprom_address : Nat
  eeprom_size : Nat
deriving DecidableEq

/-- Model of eeprom_init: after i2c_init (a transport concern, emitting no
modelled event), the device address and size are stored into the descriptor
unconditionally.  The uint8_t and uint16_t parameter types truncate. -/
def eeprom_init (dev_address size : Nat) : eeprom :=
  { eeprom_address := dev_address % 256, eeprom_size := size % 65536 }

/-- Modelled from the spec, section 3: the enumerated set of supported
capacity classes (Kbits). -/
def spec_supported (s : Nat) : Prop :=
  s = 1 ∨ s = 2 ∨ s = 4 ∨ s = 8 ∨ s = 16 ∨ s = 32 ∨ s = 64 ∨ s = 128 ∨
    s = 256 ∨ s = 512 ∨ s = 1024

instance instDecidableSpecSupported (s : Nat) : Decidable (spec_supported s) := by
  unfold spec_supported
  infer_instance

/-- Modelled from the spec, section 3: page size in bytes per capacity
class (0 returned for unsupported classes). -/
def spec_page_size (s : Nat) : Nat :=
  if s = 1 ∨ s = 2 then 8
  else if s = 4 ∨ s = 8 ∨ s = 16 then 16
  else if s = 32 ∨ s = 64 then 32
  else if s = 128 ∨ s = 256 then 64
  else if s = 512 then 128
  else if s = 1024 then 256
  else 0

/-- Modelled from the spec, section 3: number of high memory-address bits
folded into the device-select byte. -/
def spec_fold_bits (s : Nat) : Nat :=
  if s = 4 then 1 else if s = 8 then 2 else if s = 16 then 3 else 0

/-- Modelled from the spec, section 3: capacity classes that use two
explicit memory-address bytes. -/
def spec_two_byte (s : Nat) : Prop :=
  s = 32 ∨ s = 64 ∨ s = 128 ∨ s = 256 ∨ s = 512 ∨ s = 1024

instance instDecidableSpecTwoByte (s : Nat) : Decidable (spec_two_byte s) := by
  unfold spec_two_byte
  infer_instance

/-- Chunk decomposition performed by the while-loop of eeprom_write.  Each
element is (pos_in_page at loop entry, bytes_written at loop entry, number
of payload bytes the inner for-loop emits); the inner for-loop runs i from
pos_in_page while i < page and bytes_written < datasize, so a chunk emits
min (page - pos) (datasize - bytes_written) bytes, after which pos_in_page
is reset to 0.  Fuel equal to datasize is exact for the C loop: pos_in_page
is a remainder mod page, hence below page, so every iteration emits at
least one byte. -/
def writeChunksF (page : Nat) : Nat → Nat → Nat → Nat → List (Nat × Nat × Nat)
  | 0, _, _, _ => []
  | fuel + 1, pos, bw, datasize =>
    if bw < datasize then
      (pos, bw, min (page - pos) (datasize - bw)) ::
        writeChunksF page fuel 0 (bw + min (page - pos) (datasize - bw)) datasize
    else []

/-- Chunks of a whole eeprom_write call: start at pos_in_page = pos with
bytes_written = 0. -/
def writeChunks (page pos datasize : Nat) : List (Nat × Nat × Nat) :=
  writeChunksF page datasize pos 0 datasize

/-- Bus events of one write chunk: the transaction header (i2c_start_wait
plus the address byte or bytes, a function of pos_in_page) followed by the
payload bytes i2c_write(data[bytes_written + k]) for k below the chunk
length.  Array elements are uint8_t, hence the mod 256. -/
def chunkTrace (header : Nat → List BusEvent) (data : List Nat)
    (ch : Nat × Nat × Nat) : List BusEvent :=
  header ch.1 ++
    (List.range ch.2.2).map (fun k => BusEvent.write ((data.getD (ch.2.1 + k) 0) % 256))

/-- Ideal-transport stores of one write chunk: payload byte k of the chunk
is stored at the device address the transaction specifies for it, namely
the chunk start address plus k. -/
def chunkStores (addr : Nat → Nat) (data : List Nat)
    (ch : Nat × Nat × Nat) : List (Nat × Nat) :=
  (List.range ch.2.2).map (fun k => (addr ch.1 + k, (data.getD (ch.2.1 + k) 0) % 256))

/-- Model of eeprom_write: the trace of bus events emitted for the given
descriptor, start address (uint16_t), data array and datasize (uint16_t).
Each branch reproduces the corresponding if-branch of the C function: the
per-chunk header recomputes the select byte and address byte or bytes from
the original mem_address and the current pos_in_page, and a single i2c_stop
is emitted after the whole dispatch. -/
def eeprom_write (a : eeprom) (mem_address : Nat) (data : List Nat)
    (datasize : Nat) : List BusEvent :=
  let m := mem_address % 65536
  let n := datasize % 65536
  (if a.eeprom_size = 1 ∨ a.eeprom_size = 2 then
    (writeChunks 8 (m % 8) n).flatMap (chunkTrace (fun pos =>
      [BusEvent.start ((a.eeprom_address + I2C_WRITE) % 256),
       BusEvent.write ((m % 256 + 8 * pos) % 256)]) data)
  else if a.eeprom_size = 4 then
    (writeChunks 16 (m % 16) n).flatMap (chunkTrace (fun pos =>
      [BusEvent.start (((a.eeprom_address ||| ((m >>> 8) &&& 1)) + I2C_WRITE) % 256),
       BusEvent.write ((m % 256 + 16 * pos) % 256)]) data)
  else if a.eeprom_size = 8 then
    (writeChunks 16 (m % 16) n).flatMap (chunkTrace (fun pos =>
      [BusEvent.start (((a.eeprom_address ||| ((m >>> 8) &&& 3)) + I2C_WRITE) % 256),
       BusEvent.write ((m % 256 + 16 * pos) % 256)]) data)
  else if a.eeprom_size = 16 then
    (writeChunks 16 (m % 16) n).flatMap (chunkTrace (fun pos =>
      [BusEvent.start (((a.eeprom_address ||| ((m >>> 8) &&& 7)) + I2C_WRITE) % 256),
       BusEvent.write ((m % 256 + 16 * pos) % 256)]) data)
  else if a.eeprom_size = 32 ∨ a.eeprom_size = 64 then
    (writeChunks 32 (m % 32) n).flatMap (chunkTrace (fun pos =>
      [BusEvent.start ((a.eeprom_address + I2C_WRITE) % 256),
       BusEvent.write ((m &&& 0xFF00) >>> 8),
       BusEvent.write (((m &&& 0xFF) + 32 * pos) % 256)]) data)
  else if a.eeprom_size = 128 ∨ a.eeprom_size = 256 then
    (writeChunks 64 (m % 64) n).flatMap (chunkTrace (fun pos =>
      [BusEvent.start ((a.eeprom_address + I2C_WRITE) % 256),
       BusEvent.write ((m &&& 0xFF00) >>> 8),
       BusEvent.write (((m &&& 0xFF) + 64 * pos) % 256)]) data)
  else if a.eeprom_size = 512 then
    (writeChunks 128 (m % 128) n).flatMap (chunkTrace (fun pos =>
      [BusEvent.start ((a.eeprom_address + I2C_WRITE) % 256),
       BusEvent.write ((m &&& 0xFF00) >>> 8),
       BusEvent.write (((m &&& 0xFF) + 128 * pos) % 256)]) data)
  else if a.eeprom_size = 1024 then
    (writeChunks 256 (m % 256) n).flatMap (chunkTrace (fun pos =>
      [BusEvent.start ((a.eeprom_address + I2C_WRITE) % 256),
       BusEvent.write ((m &&& 0xFF00) >>> 8),
       BusEvent.write (((m &&& 0xFF) + 256 * pos) % 256)]) data)
  else []) ++ [BusEvent.stop]

/-- Ideal-transport interpretation of eeprom_write: the (device address,
byte) pairs stored by the emitted transactions, in emission order.  The
chunk start address is the one the chunk header specifies: for classes 1
and 2 the single explicit address byte; for classes 4, 8 and 16 the folded
high bits times 256 plus the explicit address byte; for the two-address-byte
classes the high byte times 256 plus the low byte. -/
def eeprom_write_stores (a : eeprom) (mem_address : Nat) (data : List Nat)
    (datasize : Nat) : List (Nat × Nat) :=
  let m := mem_address % 65536
  let n := datasize % 65536
  if a.eeprom_size = 1 ∨ a.eeprom_size = 2 then
    (writeChunks 8 (m % 8) n).flatMap
      (chunkStores (fun pos => (m % 256 + 8 * pos) % 256) data)
  else if a.eeprom_size = 4 then
    (writeChunks 16 (m % 16) n).flatMap
      (chunkStores (fun pos => ((m >>> 8) &&& 1) * 256 + (m % 256 + 16 * pos) % 256) data)
  else if a.eeprom_size = 8 then
    (writeChunks 16 (m % 16) n).flatMap
      (chunkStores (fun pos => ((m >>> 8) &&& 3) * 256 + (m % 256 + 16 * pos) % 256) data)
  else if a.eeprom_size = 16 then
    (writeChunks 16 (m % 16) n).flatMap
      (chunkStores (fun pos => ((m >>> 8) &&& 7) * 256 + (m % 256 + 16 * pos) % 256) data)
  else if a.eeprom_size = 32 ∨ a.eeprom_size = 64 then
    (writeChunks 32 (m % 32) n).flatMap
      (chunkStores (fun pos => ((m &&& 0xFF00) >>> 8) * 256 + ((m &&& 0xFF) + 32 * pos) % 256) data)
  else if a.eeprom_size = 128 ∨ a.eeprom_size = 256 then
    (writeChunks 64 (m % 64) n).flatMap
      (chunkStores (fun pos => ((m &&& 0xFF00) >>> 8) * 256 + ((m &&& 0xFF) + 64 * pos) % 256) data)
  else if a.eeprom_size = 512 then
    (writeChunks 128 (m % 128) n).flatMap
      (chunkStores (fun pos => ((m &&& 0xFF00) >>> 8) * 256 + ((m &&& 0xFF) + 128 * pos) % 256) data)
  else if a.eeprom_size = 1024 then
    (writeChunks 256 (m % 256) n).flatMap
      (chunkStores (fun pos => ((m &&& 0xFF00) >>> 8) * 256 + ((m &&& 0xFF) + 256 * pos) % 256) data)
  else []

/-- Model of eeprom_read: the trace of bus events emitted.  Every supported
branch sets the address pointer in a write-mode transaction, stops, opens a
read-mode transaction, performs i2c_readAck while bytes_read < datasize - 1
(uint16_t arithmetic, hence the mod 65536 wrap when datasize = 0) and one
final i2c_readNak; a single i2c_stop closes the whole call.  In the class 8
branch the C code adds bytes_read, which is still 0, to the address byte. -/
def eeprom_read (a : eeprom) (mem_address : Nat) (datasize : Nat) : List BusEvent :=
  let m := mem_address % 65536
  let n := datasize % 65536
  (if a.eeprom_size = 1 ∨ a.eeprom_size = 2 then
    [BusEvent.start ((a.eeprom_address + I2C_WRITE) % 256),
     BusEvent.write (m % 256), BusEvent.stop,
     BusEvent.start ((a.eeprom_address + I2C_READ) % 256)] ++
    List.replicate ((n + 65535) % 65536) BusEvent.readAck ++ [BusEvent.readNak]
  else if a.eeprom_size = 4 then
    [BusEvent.start (((a.eeprom_address ||| ((m >>> 8) &&& 1)) + I2C_WRITE) % 256),
     BusEvent.write (m % 256), BusEvent.stop,
     BusEvent.start (((a.eeprom_address ||| ((m >>> 8) &&& 1)) + I2C_READ) % 256)] ++
    List.replicate ((n + 65535) % 65536) BusEvent.readAck ++ [BusEvent.readNak]
  else if a.eeprom_size = 8 then
    [BusEvent.start (((a.eeprom_address ||| ((m >>> 8) &&& 3)) + I2C_WRITE) % 256),
     BusEvent.write (m % 256), BusEvent.stop,
     BusEvent.start (((a.eeprom_address ||| ((m >>> 8) &&& 3)) + I2C_READ) % 256)] ++
    List.replicate ((n + 65535) % 65536) BusEvent.readAck ++ [BusEvent.readNak]
  else if a.eeprom_size = 16 then
    [BusEvent.start (((a.eeprom_address ||| ((m >>> 8) &&& 7)) + I2C_WRITE) % 256),
     BusEvent.write (m % 256), BusEvent.stop,
     BusEvent.start (((a.eeprom_address ||| ((m >>> 8) &&& 7)) + I2C_READ) % 256)] ++
    List.replicate ((n + 65535) % 65536) BusEvent.readAck ++ [BusEvent.readNak]
  else if a.eeprom_size = 32 ∨ a.eeprom_size = 64 ∨ a.eeprom_size = 128 ∨
      a.eeprom_size = 256 ∨ a.eeprom_size = 512 ∨ a.eeprom_size = 1024 then
    [BusEvent.start ((a.eeprom_address + I2C_WRITE) % 256),
     BusEvent.write ((m &&& 0xFF00) >>> 8),
     BusEvent.write (m &&& 0xFF), BusEvent.stop,
     BusEvent.start ((a.eeprom_address + I2C_READ) % 256)] ++
    List.replicate ((n + 65535) % 65536) BusEvent.readAck ++ [BusEvent.readNak]
  else []) ++ [BusEvent.stop]

/-- Ideal-transport stores of the read loop: the loop writes the byte
retrieved at each iteration into data[bytes_read], reading memory that
auto-increments from the start address; with uint16_t arithmetic there are
(datasize + 65535) mod 65536 acknowledged reads and then the final
non-acknowledged read, at buffer indices 0, 1, 2 and so on. -/
def readStoresFrom (start n : Nat) (mem : Nat → Nat) : List (Nat × Nat) :=
  (List.range ((n + 65535) % 65536 + 1)).map (fun j => (j, mem (start + j)))

/-- Ideal-transport interpretation of eeprom_read: the (buffer index, byte)
pairs stored into the caller's array, reading the ideal memory mem from the
address the address-setting transaction specifies. -/
def eeprom_read_stores (a : eeprom) (mem_address : Nat) (datasize : Nat)
    (mem : Nat → Nat) : List (Nat × Nat) :=
  let m := mem_address % 65536
  let n := datasize % 65536
  if a.eeprom_size = 1 ∨ a.eeprom_size = 2 then
    readStoresFrom (m % 256) n mem
  else if a.eeprom_size = 4 then
    readStoresFrom (((m >>> 8) &&& 1) * 256 + m % 256) n mem
  else if a.eeprom_size = 8 then
    readStoresFrom (((m >>> 8) &&& 3) * 256 + m % 256) n mem
  else if a.eeprom_size = 16 then
    readStoresFrom (((m >>> 8) &&& 7) * 256 + m % 256) n mem
  else if a.eeprom_size = 32 ∨ a.eeprom_size = 64 ∨ a.eeprom_size = 128 ∨
      a.eeprom_size = 256 ∨ a.eeprom_size = 512 ∨ a.eeprom_size = 1024 then
    readStoresFrom (((m &&& 0xFF00) >>> 8) * 256 + (m &&& 0xFF)) n mem
  else []

/-- Byte sequence an eeprom_read call delivers into the caller's buffer, in
index order. -/
def eeprom_read_values (a : eeprom) (mem_address : Nat) (datasize : Nat)
    (mem : Nat → Nat) : List Nat :=
  (eeprom_read_stores a mem_address datasize mem).map Prod.snd

/-- Ideal device memory after a list of stores: later stores win. -/
def applyStores (mem : Nat → Nat) (stores : List (Nat × Nat)) : Nat → Nat :=
  stores.foldl (fun acc st => fun x => if x = st.1 then st.2 else acc x) mem

/-- Checks that a trace never opens a transaction while one is open: a
start is only legal when the bus is idle, and a stop idles the bus.  The
Bool argument is whether a transaction is currently open. -/
def opensProperlyClosed : List BusEvent → Bool → Bool
  | [], _ => true
  | BusEvent.start _ :: rest, opn => !opn && opensProperlyClosed rest true
  | BusEvent.stop :: rest, _ => opensProperlyClosed rest false
  | _ :: rest, opn => opensProperlyClosed rest opn

/-- Modelled from the spec, sections 3 and 4: the uniform write algorithm,
parameterized by the spec's addressing-scheme table.  Page segmentation uses
spec_page_size; the select byte folds spec_fold_bits high address bits for
the one-address-byte schemes, and the spec_two_byte schemes emit two
explicit address bytes with a fixed select byte. -/
def genericWrite (a : eeprom) (mem_address : Nat) (data : List Nat)
    (datasize : Nat) : List BusEvent :=
  let m := mem_address % 65536
  let n := datasize % 65536
  let page := spec_page_size a.eeprom_size
  (if spec_supported a.eeprom_size then
    (writeChunks page (m % page) n).flatMap (chunkTrace (fun pos =>
      if spec_two_byte a.eeprom_size then
        [BusEvent.start ((a.eeprom_address + I2C_WRITE) % 256),
         BusEvent.write ((m &&& 0xFF00) >>> 8),
         BusEvent.write (((m &&& 0xFF) + page * pos) % 256)]
      else
        [BusEvent.start (((a.eeprom_address |||
            ((m >>> 8) &&& (2 ^ spec_fold_bits a.eeprom_size - 1))) + I2C_WRITE) % 256),
         BusEvent.write ((m % 256 + page * pos) % 256)]) data)
  else []) ++ [BusEvent.stop]

/-- Modelled from the spec, sections 3 and 4: the uniform read algorithm,
parameterized by the spec's addressing-scheme table, with the same select
byte and address byte computation as genericWrite and the
acknowledge-all-but-last read loop. -/
def genericRead (a : eeprom) (mem_address : Nat) (datasize : Nat) : List BusEvent :=
  let m := mem_address % 65536
  let n := datasize % 65536
  (if spec_supported a.eeprom_size then
    (if spec_two_byte a.eeprom_size then
      [BusEvent.start ((a.eeprom_address + I2C_WRITE) % 256),
       BusEvent.write ((m &&& 0xFF00) >>> 8),
       BusEvent.write (m &&& 0xFF), BusEvent.stop,
       BusEvent.start ((a.eeprom_address + I2C_READ) % 256)]
    else
      [BusEvent.start (((a.eeprom_address |||
          ((m >>> 8) &&& (2 ^ spec_fold_bits a.eeprom_size - 1))) + I2C_WRITE) % 256),
       BusEvent.write (m % 256), BusEvent.stop,
       BusEvent.start (((a.eeprom_address |||
          ((m >>> 8) &&& (2 ^ spec_fold_bits a.eeprom_size - 1))) + I2C_READ) % 256)]) ++
    List.replicate ((n + 65535) % 65536) BusEvent.readAck ++ [BusEvent.readNak]
  else []) ++ [BusEvent.stop]

lemma filter_replicate_true {α : Type} (p : α → Bool) (x : α) (h : p x = true) (k : Nat) :
    (List.replicate k x).filter p = List.replicate k x := by
  induction k with
  | zero => rfl
  | succ k ih => simp [List.replicate_succ, List.filter_cons, h, ih]

lemma eeprom_write_unsupported (a : eeprom) (m : Nat) (data : List Nat) (n : Nat)
    (h : ¬ spec_supported a.eeprom_size) :
    eeprom_write a m data n = [BusEvent.stop] := by
  obtain ⟨ea, s⟩ := a
  simp only [spec_supported, not_or] at h
  obtain ⟨e1, e2, e3, e4, e5, e6, e7, e8, e9, e10, e11⟩ := h
  simp [eeprom_write, e1, e2, e3, e4, e5, e6, e7, e8, e9, e10, e11]

lemma eeprom_write_stores_unsupported (a : eeprom) (m : Nat) (data : List Nat) (n : Nat)
    (h : ¬ spec_supported a.eeprom_size) :
    eeprom_write_stores a m data n = [] := by
  obtain ⟨ea, s⟩ := a
  simp only [spec_supported, not_or] at h
  obtain ⟨e1, e2, e3, e4, e5, e6, e7, e8, e9, e10, e11⟩ := h
  simp [eeprom_write_stores, e1, e2, e3, e4, e5, e6, e7, e8, e9, e10, e11]

lemma eeprom_read_unsupported (a : eeprom) (m : Nat) (n : Nat)
    (h : ¬ spec_supported a.eeprom_size) :
    eeprom_read a m n = [BusEvent.stop] := by
  obtain ⟨ea, s⟩ := a
  simp only [spec_supported, not_or] at h
  obtain ⟨e1, e2, e3, e4, e5, e6, e7, e8, e9, e10, e11⟩ := h
  simp [eeprom_read, e1, e2, e3, e4, e5, e6, e7, e8, e9, e10, e11]

lemma eeprom_read_stores_unsupported (a : eeprom) (m : Nat) (n : Nat) (mem : Nat → Nat)
    (h : ¬ spec_supported a.eeprom_size) :
    eeprom_read_stores a m n mem = [] := by
  obtain ⟨ea, s⟩ := a
  simp only [spec_supported, not_or] at h
  obtain ⟨e1, e2, e3, e4, e5, e6, e7, e8, e9, e10, e11⟩ := h
  simp [eeprom_read_stores, e1, e2, e3, e4, e5, e6, e7, e8, e9, e10, e11]

/-- C3: for every descriptor, eeprom_write and eeprom_read coincide with the
uniform algorithms parameterized by the addressing-scheme table of the spec:
page size 8 for classes 1 and 2, 16 for 4, 8 and 16, 32 for 32 and 64, 64
for 128 and 256, 128 for 512, 256 for 1024; folded select-byte address bits
1, 2, 3 for classes 4, 8, 16 and 0 otherwise; two explicit address bytes
exactly for the classes from 32 up. -/
theorem write_read_follow_spec_table (a : eeprom) (m : Nat) (data : List Nat) (n : Nat) :
    eeprom_write a m data n = genericWrite a m data n ∧
    eeprom_read a m n = genericRead a m n := by
  obtain ⟨ea, s⟩ := a
  have hcase : s = 1 ∨ s = 2 ∨ s = 4 ∨ s = 8 ∨ s = 16 ∨ s = 32 ∨ s = 64 ∨ s = 128 ∨
      s = 256 ∨ s = 512 ∨ s = 1024 ∨ ¬ spec_supported s := by
    by_cases h : spec_supported s
    · simp only [spec_supported] at h
      tauto
    · tauto
  rcases hcase with rfl | rfl | rfl | rfl | rfl | rfl | rfl | rfl | rfl | rfl | rfl | h
  · constructor <;>
      simp [eeprom_write, genericWrite, eeprom_read, genericRead, spec_supported,
        spec_page_size, spec_two_byte, spec_fold_bits, Nat.and_zero, Nat.or_zero]
  · constructor <;>
      simp [eeprom_write, genericWrite, eeprom_read, genericRead, spec_supported,
        spec_page_size, spec_two_byte, spec_fold_bits, Nat.and_zero, Nat.or_zero]
  · constructor <;>
      simp [eeprom_write, genericWrite, eeprom_read, genericRead, spec_supported,
        spec_page_size, spec_two_byte, spec_fold_bits, Nat.and_zero, Nat.or_zero]
  · constructor <;>
      simp [eeprom_write, genericWrite, eeprom_read, genericRead, spec_supported,
        spec_page_size, spec_two_byte, spec_fold_bits, Nat.and_zero, Nat.or_zero]
  · constructor <;>
      simp [eeprom_write, genericWrite, eeprom_read, genericRead, spec_supported,
        spec_page_size, spec_two_byte, spec_fold_bits, Nat.and_zero, Nat.or_zero]
  · constructor <;>
      simp [eeprom_write, genericWrite, eeprom_read, genericRead, spec_supported,
        spec_page_size, spec_two_byte, spec_fold_bits, Nat.and_zero, Nat.or_zero]
  · constructor <;>
      simp [eeprom_write, genericWrite, eeprom_read, genericRead, spec_supported,
        spec_page_size, spec_two_byte, spec_fold_bits, Nat.and_zero, Nat.or_zero]
  · constructor <;>
      simp [eeprom_write, genericWrite, eeprom_read, genericRead, spec_supported,
        spec_page_size, spec_two_byte, spec_fold_bits, Nat.and_zero, Nat.or_zero]
  · constructor <;>
      simp [eeprom_write, genericWrite, eeprom_read, genericRead, spec_supported,
        spec_page_size, spec_two_byte, spec_fold_bits, Nat.and_zero, Nat.or_zero]
  · constructor <;>
      simp [eeprom_write, genericWrite, eeprom_read, genericRead, spec_supported,
        spec_page_size, spec_two_byte, spec_fold_bits, Nat.and_zero, Nat.or_zero]
  · constructor <;>
      simp [eeprom_write, genericWrite, eeprom_read, genericRead, spec_supported,
        spec_page_size, spec_two_byte, spec_fold_bits, Nat.and_zero, Nat.or_zero]
  · have hw := eeprom_write_unsupported ⟨ea, s⟩ m data n h
    have hr := eeprom_read_unsupported ⟨ea, s⟩ m n h
    rw [hw, hr]
    constructor <;>
      simp [genericWrite, genericRead, h]

/-- C7: for a capacity value outside the enumerated set, eeprom_write and
eeprom_read emit no bus start and transfer no address or payload byte (the
trace is just the unconditional trailing i2c_stop), the write stores
nothing to the device and the read stores nothing into the caller's
buffer; both calls are total, hence no crash. -/
theorem unsupported_capacity_noop (a : eeprom) (m : Nat) (data : List Nat) (n : Nat)
    (mem : Nat → Nat) (h : ¬ spec_supported a.eeprom_size) :
    eeprom_write a m data n = [BusEvent.stop] ∧
    eeprom_write_stores a m data n = [] ∧
    eeprom_read a m n = [BusEvent.stop] ∧
    eeprom_read_stores a m n mem = [] :=
  ⟨eeprom_write_unsupported a m data n h, eeprom_write_stores_unsupported a m data n h,
   eeprom_read_unsupported a m n h, eeprom_read_stores_unsupported a m n mem h⟩

theorem unsupported_capacity_noop_witness :
    (¬ spec_supported ({ eeprom_address := 0xA0, eeprom_size := 3 } : eeprom).eeprom_size) ∧
    (eeprom_write { eeprom_address := 0xA0, eeprom_size := 3 } 5 [1, 2] 2 = [BusEvent.stop] ∧
     eeprom_write_stores { eeprom_address := 0xA0, eeprom_size := 3 } 5 [1, 2] 2 = [] ∧
     eeprom_read { eeprom_address := 0xA0, eeprom_size := 3 } 5 2 = [BusEvent.stop] ∧
     eeprom_read_stores { eeprom_address := 0xA0, eeprom_size := 3 } 5 2 (fun _ => 7) = []) :=
  ⟨by decide,
   unsupported_capacity_noop { eeprom_address := 0xA0, eeprom_size := 3 } 5 [1, 2] 2
     (fun _ => 7) (by decide)⟩

/-- C8 counterexample: constructing a device with unsupported capacity 3
succeeds (eeprom_init returns an ordinary descriptor, there is no failure
path at construction) and the resulting device's write and read are silent
no-ops at first use. -/
theorem eeprom_init_no_validation_cex :
    eeprom_init 0xA0 3 = { eeprom_address := 0xA0, eeprom_size := 3 } ∧
    ¬ spec_supported (eeprom_init 0xA0 3).eeprom_size ∧
    eeprom_write (eeprom_init 0xA0 3) 0 [1] 1 = [BusEvent.stop] ∧
    eeprom_read (eeprom_init 0xA0 3) 0 1 = [BusEvent.stop] := by
  refine ⟨by decide, by decide, ?_, ?_⟩
  · exact eeprom_write_unsupported _ 0 [1] 1 (by decide)
  · exact eeprom_read_unsupported _ 0 1 (by decide)

/-- C8 amended: eeprom_init performs no capacity validation and never
fails; it stores the (truncated) device address and size unconditionally,
and a device constructed with an unsupported capacity value yields silent
no-op writes and reads at use. -/
theorem eeprom_init_accepts_any_capacity (addr size m : Nat) (data : List Nat) (n : Nat)
    (h : ¬ spec_supported (size % 65536)) :
    eeprom_init addr size = { eeprom_address := addr % 256, eeprom_size := size % 65536 } ∧
    eeprom_write (eeprom_init addr size) m data n = [BusEvent.stop] ∧
    eeprom_read (eeprom_init addr size) m n = [BusEvent.stop] := by
  refine ⟨rfl, eeprom_write_unsupported _ _ _ _ ?_, eeprom_read_unsupported _ _ _ ?_⟩ <;>
    simpa [eeprom_init] using h

theorem eeprom_init_accepts_any_capacity_witness :
    (¬ spec_supported (37 % 65536)) ∧
    (eeprom_init 0xA0 37 = { eeprom_address := 0xA0, eeprom_size := 37 } ∧
     eeprom_write (eeprom_init 0xA0 37) 9 [1, 2, 3] 3 = [BusEvent.stop] ∧
     eeprom_read (eeprom_init 0xA0 37) 9 3 = [BusEvent.stop]) :=
  ⟨by decide, eeprom_init_accepts_any_capacity 0xA0 37 9 [1, 2, 3] 3 (by decide)⟩

/-- C9: for every supported capacity class and every count between 1 and
65535 (the range of the uint16_t parameter), the read-byte events of an
eeprom_read trace are exactly count - 1 acknowledged reads followed by one
final non-acknowledged read. -/
theorem read_ack_all_but_last (a : eeprom) (m n : Nat)
    (hs : spec_supported a.eeprom_size) (h1 : 1 ≤ n) (h2 : n < 65536) :
    (eeprom_read a m n).filter BusEvent.isRead
      = List.replicate (n - 1) BusEvent.readAck ++ [BusEvent.readNak] := by
  obtain ⟨ea, s⟩ := a
  have hn : n % 65536 = n := Nat.mod_eq_of_lt h2
  have hk : (n + 65535) % 65536 = n - 1 := by omega
  simp only [spec_supported] at hs
  rcases hs with rfl | rfl | rfl | rfl | rfl | rfl | rfl | rfl | rfl | rfl | rfl <;>
    simp [eeprom_read, BusEvent.isRead, List.filter_append, filter_replicate_true, hn, hk]

theorem read_ack_all_but_last_witness :
    spec_supported ({ eeprom_address := 0xA0, eeprom_size := 1 } : eeprom).eeprom_size ∧
    (eeprom_read { eeprom_address := 0xA0, eeprom_size := 1 } 0 3).filter BusEvent.isRead
      = List.replicate (3 - 1) BusEvent.readAck ++ [BusEvent.readNak] :=
  ⟨by decide,
   read_ack_all_but_last { eeprom_address := 0xA0, eeprom_size := 1 } 0 3
     (by decide) (by decide) (by decide)⟩

/-- C10: for every supported capacity class and every count between 1 and
65535 (the range of the uint16_t parameter), eeprom_read stores exactly
count bytes into the caller's buffer, at indices 0 through count - 1 in
order and at no other index. -/
theorem read_stores_exact_range (a : eeprom) (m n : Nat) (mem : Nat → Nat)
    (hs : spec_supported a.eeprom_size) (h1 : 1 ≤ n) (h2 : n < 65536) :
    (eeprom_read_stores a m n mem).map Prod.fst = List.range n := by
  obtain ⟨ea, s⟩ := a
  have hn : n % 65536 = n := Nat.mod_eq_of_lt h2
  have hk : (n + 65535) % 65536 + 1 = n := by omega
  simp only [spec_supported] at hs
  rcases hs with rfl | rfl | rfl | rfl | rfl | rfl | rfl | rfl | rfl | rfl | rfl <;>
    simp [eeprom_read_stores, readStoresFrom, hn, hk, List.map_map] <;>
    exact List.map_id _

theorem read_stores_exact_range_witness :
    spec_supported ({ eeprom_address := 0xA0, eeprom_size := 8 } : eeprom).eeprom_size ∧
    (eeprom_read_stores { eeprom_address := 0xA0, eeprom_size := 8 } 300 4
        (fun x => x + 1)).map Prod.fst = List.range 4 :=
  ⟨by decide,
   read_stores_exact_range { eeprom_address := 0xA0, eeprom_size := 8 } 300 4
     (fun x => x + 1) (by decide) (by decide) (by decide)⟩


set_option maxRecDepth 4000 in
/-- C1: evaluation at the claim's own scenario, capacity class 1024,
writing 300 bytes at offset 0.  The second transaction (events 259 to 261
of the trace) is addressed with address bytes 0x00, 0x00, not 0x01, 0x00:
the loop recomputes the address from the original mem_address with
pos_in_page reset to 0, so the 44 remaining bytes are stored at device
addresses 0 to 43, not 256 to 299, and byte k of the payload is not stored
at logical offset k. -/
theorem write_second_page_readdressed :
    ((eeprom_write { eeprom_address := 0xA0, eeprom_size := 1024 } 0
        (List.replicate 300 0xAB) 300).drop 259).take 3
      = [BusEvent.start 0xA0, BusEvent.write 0x00, BusEvent.write 0x00] ∧
    (eeprom_write_stores { eeprom_address := 0xA0, eeprom_size := 1024 } 0
        (List.replicate 300 0xAB) 300).map Prod.fst
      = List.range 256 ++ List.range 44 ∧
    (eeprom_write_stores { eeprom_address := 0xA0, eeprom_size := 1024 } 0
        (List.replicate 300 0xAB) 300).map Prod.fst ≠ List.range 300 := by
  refine ⟨by decide, by decide, by decide⟩

/-- C2: the write-then-read round trip fails on the code.  Capacity class
1, offset 1, payload [5] (length 1, within 4 pages): the write transaction
emits address byte 1 + 8 * (1 mod 8) = 9, so the byte is stored at device
address 9, while the read fetches from device address 1; over an ideal
transport initialized to zeros the round trip returns [0], not [5]. -/
theorem write_read_roundtrip_fails :
    eeprom_read_values { eeprom_address := 0xA0, eeprom_size := 1 } 1 1
        (applyStores (fun _ => 0)
          (eeprom_write_stores { eeprom_address := 0xA0, eeprom_size := 1 } 1 [5] 1))
      = [0] ∧
    (0 : Nat) ≠ 5 ∧
    (eeprom_write_stores { eeprom_address := 0xA0, eeprom_size := 1 } 1 [5] 1)
      = [(9, 5)] := by
  refine ⟨by decide, by decide, by decide⟩

/-- C4: a write crossing exactly one page boundary does issue exactly two
write-mode transactions with the split sizes the claim states, but the
transactions are not confined to their own pages: for capacity class 1
(page size 8), writing 12 bytes at offset 4, the first transaction is
addressed at device address 4 + 8 * (4 mod 8) = 36 (a different page
entirely) and the second is re-addressed at 4, its 8 bytes spanning device
addresses 4 to 11 across the page boundary at 8. -/
theorem page_crossing_write_not_confined :
    (eeprom_write { eeprom_address := 0xA0, eeprom_size := 1 } 4
        (List.range 12) 12).countP BusEvent.isStart = 2 ∧
    (eeprom_write_stores { eeprom_address := 0xA0, eeprom_size := 1 } 4
        (List.range 12) 12).map Prod.fst
      = [36, 37, 38, 39, 4, 5, 6, 7, 8, 9, 10, 11] ∧
    ((eeprom_write_stores { eeprom_address := 0xA0, eeprom_size := 1 } 4
        (List.range 12) 12).map Prod.fst).any (fun x => decide (15 < x)) = true := by
  refine ⟨by decide, by decide, by decide⟩

/-- C5: a read with count 0 is not a no-op.  The uint16_t expression
datasize - 1 wraps to 65535, so for capacity class 1 the call opens the
address-set transaction and the read transaction, performs 65535
acknowledged reads plus a final non-acknowledged read, and stores 65536
bytes into the caller's buffer at indices 0 through 65535. -/
theorem read_count_zero_underflows :
    eeprom_read { eeprom_address := 0xA0, eeprom_size := 1 } 0 0
      = [BusEvent.start 0xA0, BusEvent.write 0, BusEvent.stop, BusEvent.start 0xA1] ++
        List.replicate 65535 BusEvent.readAck ++ [BusEvent.readNak, BusEvent.stop] ∧
    (eeprom_read_stores { eeprom_address := 0xA0, eeprom_size := 1 } 0 0
        (fun _ => 0)).map Prod.fst = List.range 65536 := by
  constructor
  · simp only [eeprom_read, I2C_WRITE, I2C_READ]
    norm_num
  · simp only [eeprom_read_stores, readStoresFrom]
    norm_num [List.map_map]
    exact List.map_id _

/-- C6: eeprom_write does not close each page transaction before opening
the next; a single i2c_stop is emitted after the loop.  For capacity class
1, writing 9 bytes at offset 0 opens two transactions with only one stop in
the whole trace, so the trace contains two transaction opens without an
intervening stop. -/
theorem write_transactions_not_closed :
    opensProperlyClosed
        (eeprom_write { eeprom_address := 0xA0, eeprom_size := 1 } 0 (List.range 9) 9)
        false = false ∧
    (eeprom_write { eeprom_address := 0xA0, eeprom_size := 1 } 0
        (List.range 9) 9).countP BusEvent.isStart = 2 ∧
    (eeprom_write { eeprom_address := 0xA0, eeprom_size := 1 } 0
        (List.range 9) 9).countP BusEvent.isStop = 1 := by
  refine ⟨by decide, by decide, by decide⟩
